import Mathlib

/-!
Verification of the text-synthesis dataset pipeline (background generation,
glyph rendering, synthesis, and dataset export).

The Python sources are shallowly embedded:
* Python `int` values are `ℤ` (or `ℕ` where the source guarantees
  non-negativity), Python floats are modelled exactly as `ℚ` (or `ℝ` where
  transcendental functions appear), and `int(x)` is truncation toward zero.
* Python strings are modelled as `List Char`.
* Randomness (`random.randint`, `random.choice`, `random.shuffle`) is made
  explicit: each draw is a parameter, so theorems quantify over every
  possible outcome of the random source.
* Fallible operations return `Except`/`Option`; raising an exception is
  modelled by the error branch.
* Filesystem effects are modelled by explicit state components (for
  `split_dataset`, a boolean recording whether the output directory exists).
-/

/-! ## Python-semantics helpers -/

/-- Python `int(q)` on a float: truncation toward zero. -/
def pyInt (q : ℚ) : ℤ := if 0 ≤ q then ⌊q⌋ else ⌈q⌉

/-- Normalize one bound of a Python slice `l[a:b]` for a list of length `n`:
negative indices count from the end, and bounds are clamped to `[0, n]`. -/
def pySliceNorm (n : ℕ) (i : ℤ) : ℕ := if i < 0 then ((n : ℤ) + i).toNat else min i.toNat n

/-- Python `l[:b]`. -/
def pySliceTo (l : List α) (b : ℤ) : List α := l.take (pySliceNorm l.length b)

/-- Python `l[a:b]`. -/
def pySlice (l : List α) (a b : ℤ) : List α :=
  (l.take (pySliceNorm l.length b)).drop (pySliceNorm l.length a)

/-- Python `l[a:]`. -/
def pySliceFrom (l : List α) (a : ℤ) : List α := l.drop (pySliceNorm l.length a)

/-- Python `random.randint(lo, hi)` (inclusive bounds), driven by an explicit
draw `r` from the random source; every value of `[lo, hi]` is reachable. -/
def randint (lo hi : ℕ) (r : ℕ) : ℕ := lo + r % (hi + 1 - lo)

/-- Python `str.lower()` on a character list. -/
def pyLower (s : List Char) : List Char := s.map Char.toLower

/-- Python `str.endswith(suffix)` on character lists. -/
def pyEndsWith (s suffix : List Char) : Bool := suffix.isSuffixOf s

/-! ## Data model (synthesizer.py) -/

/-- A decoded raster surface; only the pixel dimensions are relevant to the
verified properties. -/
structure PILImage where
  width : ℕ
  height : ℕ
  deriving DecidableEq, Repr

/-- The transform mapping passed to `synthesize`: a Python dict with the
optional keys `rotation` (degrees) and `perspective` (four points). -/
structure TransformMap where
  rotation : Option ℚ := none
  perspective : Option (List (ℚ × ℚ)) := none
  deriving DecidableEq, Repr

/-- One annotation record as built by `Synthesizer.synthesize`
(`image_path` is attached later by `batch_synthesize` and is immaterial to
the verified claims). -/
structure AnnRec where
  text : List Char
  position : ℤ × ℤ
  size : ℤ × ℤ
  transform : TransformMap
  deriving DecidableEq, Repr

/-! ## split_dataset (export.py) -/

/-- The ratio check of `split_dataset`:
`if not (0.99 < total_ratio < 1.01): raise ValueError(...)`. -/
def ratio_sum_ok (tr vr ts : ℚ) : Prop :=
  99/100 < tr + vr + ts ∧ tr + vr + ts < 101/100

instance (tr vr ts : ℚ) : Decidable (ratio_sum_ok tr vr ts) := by
  unfold ratio_sum_ok; infer_instance

/-- `DatasetExporter.split_dataset`.  The filesystem is modelled by a boolean
(`does the output directory exist`): the function runs `os.makedirs` first,
then validates the ratio sum, then slices the shuffled index list.
`indices` is the result of `random.shuffle(list(range(len(annotations))))`,
i.e. theorem hypotheses require it to be a permutation of `range n`.
The pair returned is (directory-exists-after-call, outcome); a raised
`ValueError` is the `Except.error` branch. -/
def split_dataset (_dirExisted : Bool) (tr vr ts : ℚ) (indices : List ℕ) :
    Bool × Except Unit (List ℕ × List ℕ × List ℕ) :=
  -- `if not os.path.exists(output_dir): os.makedirs(output_dir)` runs first,
  -- so the directory exists afterwards (first component `true`) in both branches
  if ratio_sum_ok tr vr ts then
    let total_size := indices.length
    let train_size := pyInt ((total_size : ℚ) * tr)
    let val_size := pyInt ((total_size : ℚ) * vr)
    (true, Except.ok (pySliceTo indices train_size,
                      pySlice indices train_size (train_size + val_size),
                      pySliceFrom indices (train_size + val_size)))
  else
    (true, Except.error ())

/-! ## BackgroundGenerator (background.py) -/

/-- The mutable state of a `BackgroundGenerator`: `self.image` (single
generated/loaded surface, `None` initially) and `self.background_images`
(the directory set; the attribute is absent or empty when no directory was
loaded, which the code treats identically, so it is modelled as a list
defaulting to `[]`). -/
structure BGState where
  image : Option PILImage := none
  backgroundImages : List PILImage := []

/-- One directory entry seen by `load_background_directory`: its filename and
the result of `Image.open` on it (`none` models a raised decode error).
Files whose extension is not recognized are never opened, so their `decoded`
field is irrelevant. -/
structure DirFile where
  name : List Char
  decoded : Option PILImage

/-- The extension filter of `load_background_directory`:
`filename.lower().endswith(('.png', '.jpg', '.jpeg', '.bmp'))`. -/
def isImageFile (name : List Char) : Bool :=
  pyEndsWith (pyLower name) (r".png").toList ||
  pyEndsWith (pyLower name) (r".jpg").toList ||
  pyEndsWith (pyLower name) (r".jpeg").toList ||
  pyEndsWith (pyLower name) (r".bmp").toList

/-- The loop of `load_background_directory`, threading the accumulated
`self.background_images`.  A decode error propagates to the surrounding
`try/except`, which prints and returns `False`, keeping whatever was
already appended to `self.background_images`. -/
def loadLoop : List DirFile → List PILImage → Bool × List PILImage
  | [], acc => (decide (0 < acc.length), acc)
  | f :: rest, acc =>
      if isImageFile f.name then
        match f.decoded with
        | some img => loadLoop rest (acc ++ [img])
        | none => (false, acc)
      else loadLoop rest acc

/-- `BackgroundGenerator.load_background_directory`.  The input is the
outcome of `os.listdir` (`none` = the directory cannot be listed, making the
`except` branch return `False` before any image is stored).  The result is
(returned boolean, final `self.background_images`). -/
def load_background_directory : Option (List DirFile) → Bool × List PILImage
  | none => (false, [])
  | some files => loadLoop files []

/-- The recognized files of a listing that decode successfully, in order —
what a fault-tolerant scan would keep. -/
def decodedImages (files : List DirFile) : List PILImage :=
  files.filterMap fun f => if isImageFile f.name then f.decoded else none

/-- `BackgroundGenerator.get_random_background`: a uniformly random element
of `self.background_images` when that set is non-empty (the draw `r` selects
index `r % length`, every index being reachable), else `self.image`
(possibly `None`). -/
def get_random_background (s : BGState) (r : ℕ) : Option PILImage :=
  if h : s.backgroundImages.length = 0 then s.image
  else some (s.backgroundImages.get
    ⟨r % s.backgroundImages.length, Nat.mod_lt r (Nat.pos_of_ne_zero h)⟩)

/-- `BackgroundGenerator.get_background` just delegates. -/
def get_background (s : BGState) (r : ℕ) : Option PILImage :=
  get_random_background s r

/-! ## Synthesizer (synthesizer.py) -/

/-- The exception raised by `Synthesizer.synthesize`
(`ValueError` when no background surface is available). -/
inductive SynthError
  | backgroundNotSet
  deriving DecidableEq, Repr

/-- `Synthesizer.generate_random_position`: clamp the text dimensions to the
background dimensions, then draw `x ∈ [0, max(0, bgW - textW)]` and
`y ∈ [0, max(0, bgH - textH)]` inclusive (draws `rx`, `ry`). -/
def generate_random_position (text_width text_height bgW bgH : ℕ) (rx ry : ℕ) : ℕ × ℕ :=
  let tw := if bgW < text_width then bgW else text_width
  let th := if bgH < text_height then bgH else text_height
  let maxX := max 0 (bgW - tw)
  let maxY := max 0 (bgH - th)
  (randint 0 maxX rx, randint 0 maxY ry)

/-- `Synthesizer.synthesize`.  Rendering and warping are external raster
capabilities, so the model receives the (already transformed) glyph
surface's dimensions (`glyph`).  The composite is a copy of the background
(same dimensions) with the glyph pasted at the drawn position; the record
stores the position shifted by the 10px inset and the glyph size minus the
20px total padding. -/
def synthesize (bg : Option PILImage) (glyph : PILImage) (text : List Char)
    (transform : Option TransformMap) (rx ry : ℕ) :
    Except SynthError (PILImage × AnnRec) :=
  match bg with
  | none => Except.error SynthError.backgroundNotSet
  | some b =>
      let pos := generate_random_position glyph.width glyph.height b.width b.height rx ry
      let result : PILImage := { width := b.width, height := b.height }
      Except.ok (result,
        { text := text,
          position := ((pos.1 : ℤ) + 10, (pos.2 : ℤ) + 10),
          size := ((glyph.width : ℤ) - 20, (glyph.height : ℤ) - 20),
          transform := transform.getD {} })

/-! ## TextRenderer (text.py) -/

/-- A text bounding box as returned by `font.getbbox(text)`:
`(x0, y0, x1, y1)`. -/
structure BBox where
  x0 : ℤ
  y0 : ℤ
  x1 : ℤ
  y1 : ℤ
  deriving DecidableEq, Repr

/-- The font-size adjustment step of `TextRenderer.render_text`: measure the
current bounding box, compute the 90% target area of the canvas, and derive
the new font size (`int(font_size * scale)`); a degenerate measured box
keeps the current size.  (The drawing itself is an external raster
capability.) -/
def render_text_new_size (font_size : ℕ) (bbox : BBox) (canvasW canvasH : ℕ) : ℤ :=
  let target_width := pyInt ((canvasW : ℚ) * (9/10))
  let target_height := pyInt ((canvasH : ℚ) * (9/10))
  let current_width := bbox.x1 - bbox.x0
  let current_height := bbox.y1 - bbox.y0
  if current_width ≤ 0 ∨ current_height ≤ 0 then (font_size : ℤ)
  else pyInt ((font_size : ℚ) *
         min ((target_width : ℚ) / (current_width : ℚ))
             ((target_height : ℚ) / (current_height : ℚ)))

/-- `maxOffset` of `TextRenderer.apply_perspective`:
`min(width, height) * 0.05`. -/
noncomputable def max_offset (w h : ℕ) : ℝ := min (w : ℝ) (h : ℝ) * 0.05

/-- The soft clamp applied to each requested corner offset in
`apply_perspective`: `max_offset * np.tanh(d / max_offset)`. -/
noncomputable def clamp_offset (m d : ℝ) : ℝ := m * Real.tanh (d / m)

/-- The four source corners of the glyph surface used by
`apply_perspective`. -/
noncomputable def src_corners (w h : ℕ) : Fin 4 → ℝ × ℝ := fun i =>
  match i with
  | 0 => (0, 0)
  | 1 => ((w : ℝ) - 1, 0)
  | 2 => ((w : ℝ) - 1, (h : ℝ) - 1)
  | 3 => (0, (h : ℝ) - 1)

/-- The clamped destination points `apply_perspective` feeds to
`cv2.getPerspectiveTransform`: each requested per-axis displacement `d` is
replaced by `max_offset * tanh(d / max_offset)`.  (The matrix solve and the
warp itself are external capabilities.) -/
noncomputable def apply_perspective_dst (w h : ℕ) (points : Fin 4 → ℝ × ℝ) :
    Fin 4 → ℝ × ℝ := fun i =>
  ((src_corners w h i).1 +
     clamp_offset (max_offset w h) ((points i).1 - (src_corners w h i).1),
   (src_corners w h i).2 +
     clamp_offset (max_offset w h) ((points i).2 - (src_corners w h i).2))

/-! ## DatasetExporter subset writers (export.py) -/

/-- One annotation record as seen by the exporter, paired with the decoded
dimensions of the image file it references (`Image.open(ann['image_path'])`
returns `imgW × imgH`) and the basename used when copying. -/
structure ExportRec where
  text : List Char
  position : ℤ × ℤ
  size : ℤ × ℤ
  transform : TransformMap
  imageName : List Char
  imgW : ℕ
  imgH : ℕ
  deriving DecidableEq

/-- One entry of the COCO `images` array. -/
structure CocoImage where
  id : ℕ
  width : ℕ
  height : ℕ
  file_name : List Char
  deriving DecidableEq

/-- One entry of the COCO `annotations` array (`category_id` is fixed to 1,
`bbox = [x, y, w, h]`, `area = w * h`, plus the non-standard
`attributes.text` / `attributes.transform`). -/
structure CocoAnnEntry where
  id : ℕ
  image_id : ℕ
  category_id : ℕ
  bbox : ℤ × ℤ × ℤ × ℤ
  area : ℤ
  attr_text : List Char
  attr_transform : TransformMap
  deriving DecidableEq

/-- The loop of `_export_coco_subset` building the `images` and
`annotations` arrays.  `img_id` comes from `enumerate(indices, 1)` and
increments each iteration; `ann_id` is initialized to 1 before the loop and
— exactly as in the source — never incremented, so it is threaded through
unchanged. -/
def cocoBuild (ann_id img_id : ℕ) : List ExportRec → List CocoImage × List CocoAnnEntry
  | [] => ([], [])
  | r :: rest =>
      let tail := cocoBuild ann_id (img_id + 1) rest
      ({ id := img_id, width := r.imgW, height := r.imgH,
         file_name := r.imageName } :: tail.1,
       { id := ann_id, image_id := img_id, category_id := 1,
         bbox := (r.position.1, r.position.2, r.size.1, r.size.2),
         area := r.size.1 * r.size.2,
         attr_text := r.text, attr_transform := r.transform } :: tail.2)

/-- `DatasetExporter._export_coco_subset` restricted to its pure content:
the `images` and `annotations` arrays of the COCO document built for the
given subset records (in subset order), with both counters starting at 1. -/
def export_coco_subset (recs : List ExportRec) : List CocoImage × List CocoAnnEntry :=
  cocoBuild 1 1 recs

/-- Formatting a float with `f'{x:.6f}'`: the written-back value is the
nearest multiple of `10⁻⁶`. -/
def fmt6 (q : ℚ) : ℚ := (round (q * 1000000) : ℚ) / 1000000

/-- The raw normalized YOLO quadruple of `_export_yolo_subset`:
center and extent of the record's box divided by the decoded image's
dimensions. -/
def yolo_label_raw (r : ExportRec) : ℚ × ℚ × ℚ × ℚ :=
  (((r.position.1 : ℚ) + (r.size.1 : ℚ) / 2) / (r.imgW : ℚ),
   ((r.position.2 : ℚ) + (r.size.2 : ℚ) / 2) / (r.imgH : ℚ),
   (r.size.1 : ℚ) / (r.imgW : ℚ),
   (r.size.2 : ℚ) / (r.imgH : ℚ))

/-- The label line written by `_export_yolo_subset`:
`0 <x_center> <y_center> <width> <height>`, each value formatted with six
decimal places. -/
def yolo_line (r : ExportRec) : ℕ × ℚ × ℚ × ℚ × ℚ :=
  (0, fmt6 (yolo_label_raw r).1, fmt6 (yolo_label_raw r).2.1,
   fmt6 (yolo_label_raw r).2.2.1, fmt6 (yolo_label_raw r).2.2.2)

/-- The read-back procedure of the round-trip claim (this definition follows
the claim's wording, not the source, which contains no reader): parse the
label line and multiply by the original image dimensions, recovering
`(x, y, w, h)` of an absolute box from the centers. -/
def yolo_denorm_box (line : ℕ × ℚ × ℚ × ℚ × ℚ) (w h : ℕ) : ℚ × ℚ × ℚ × ℚ :=
  (line.2.1 * w - line.2.2.2.1 * w / 2,
   line.2.2.1 * h - line.2.2.2.2 * h / 2,
   line.2.2.2.1 * w,
   line.2.2.2.2 * h)

/-! ## Helper lemmas -/

lemma pyInt_of_nonneg {q : ℚ} (h : 0 ≤ q) : pyInt q = ⌊q⌋ := if_pos h

lemma pySliceNorm_of_nonneg {n : ℕ} {i : ℤ} (h0 : 0 ≤ i) (hn : i.toNat ≤ n) :
    pySliceNorm n i = i.toNat := by
  unfold pySliceNorm
  rw [if_neg (by omega), Nat.min_eq_left hn]

lemma take_drop_partition (l : List α) (k m : ℕ) (h : k ≤ m) :
    l.take k ++ ((l.take m).drop k ++ l.drop m) = l := by
  have h1 : (l.take m).take k = l.take k := by
    rw [List.take_take, Nat.min_eq_left h]
  calc l.take k ++ ((l.take m).drop k ++ l.drop m)
      = ((l.take m).take k ++ (l.take m).drop k) ++ l.drop m := by
        rw [h1, List.append_assoc]
    _ = l.take m ++ l.drop m := by rw [List.take_append_drop]
    _ = l := List.take_append_drop m l

/-! ## Theorems for split_dataset claims -/

/-- C4 (amended): `split_dataset` raises `InvalidRatioSum` exactly when the
three ratios do NOT satisfy `0.99 < sum < 1.01`, i.e. exactly when
`|sum - 1| < 0.01` fails **strictly**: a boundary sum with `|sum - 1| = 0.01`
is rejected.  On failure the outcome is the bare error: no partition. -/
theorem split_ratio_check_iff (d : Bool) (tr vr ts : ℚ) (l : List ℕ) :
    (split_dataset d tr vr ts l).2 = Except.error () ↔ ¬ |tr + vr + ts - 1| < 1/100 := by
  have habs : |tr + vr + ts - 1| < 1/100 ↔ ratio_sum_ok tr vr ts := by
    rw [abs_sub_lt_iff]
    constructor
    · rintro ⟨h1, h2⟩; constructor <;> linarith
    · rintro ⟨h1, h2⟩; constructor <;> linarith
  rw [habs]
  unfold split_dataset
  by_cases h : ratio_sum_ok tr vr ts
  · rw [if_pos h]; simp [h]
  · rw [if_neg h]; simp [h]

/-- C4 counterexample: the ratios (0.8, 0.2, 0.01) sum to exactly 1.01, so
`|sum - 1| ≤ 0.01` holds — the claim says the call succeeds — yet the code
rejects it, because its check is strict. -/
theorem split_ratio_boundary_cex :
    (split_dataset true (4/5) (1/5) (1/100) []).2 = Except.error () ∧
    |(4/5 : ℚ) + 1/5 + 1/100 - 1| ≤ 1/100 := by
  constructor
  · rw [split_ratio_check_iff]
    rw [show (4/5 : ℚ) + 1/5 + 1/100 - 1 = 1/100 by norm_num,
        abs_of_nonneg (show (0:ℚ) ≤ 1/100 by norm_num)]
    norm_num
  · rw [show (4/5 : ℚ) + 1/5 + 1/100 - 1 = 1/100 by norm_num,
        abs_of_nonneg (show (0:ℚ) ≤ 1/100 by norm_num)]

/-- C5 (amended): for every shuffle outcome and non-negative ratios passing
the sum check with `trainRatio + valRatio ≤ 1`, `split_dataset` returns
three lists of sizes `⌊n·trainRatio⌋`, `⌊n·valRatio⌋` and the remainder,
and their concatenation is a permutation of `range n` (so the three subsets
are pairwise disjoint and cover every index exactly once). -/
theorem split_partition_sizes (tr vr ts : ℚ) (n : ℕ) (l : List ℕ)
    (hperm : l.Perm (List.range n)) (htr : 0 ≤ tr) (hvr : 0 ≤ vr)
    (hsum1 : tr + vr ≤ 1) (hok : ratio_sum_ok tr vr ts) :
    ∃ t v te, split_dataset true tr vr ts l = (true, Except.ok (t, v, te)) ∧
      t.length = (⌊(n : ℚ) * tr⌋).toNat ∧
      v.length = (⌊(n : ℚ) * vr⌋).toNat ∧
      t.length + v.length + te.length = n ∧
      (t ++ (v ++ te)).Perm (List.range n) := by
  have hlen : l.length = n := by
    simpa using hperm.length_eq
  -- the two floor sizes and their bounds
  have ha0 : (0 : ℤ) ≤ ⌊(n : ℚ) * tr⌋ := Int.floor_nonneg.mpr (by positivity)
  have hb0 : (0 : ℤ) ≤ ⌊(n : ℚ) * vr⌋ := Int.floor_nonneg.mpr (by positivity)
  have hab : ⌊(n : ℚ) * tr⌋ + ⌊(n : ℚ) * vr⌋ ≤ (n : ℤ) := by
    have h1 : (⌊(n : ℚ) * tr⌋ : ℚ) ≤ (n : ℚ) * tr := Int.floor_le _
    have h2 : (⌊(n : ℚ) * vr⌋ : ℚ) ≤ (n : ℚ) * vr := Int.floor_le _
    have h3 : (n : ℚ) * tr + (n : ℚ) * vr ≤ (n : ℚ) := by
      have h4 : (n : ℚ) * (tr + vr) ≤ (n : ℚ) * 1 :=
        mul_le_mul_of_nonneg_left hsum1 (by positivity)
      linarith
    have h5 : ((⌊(n : ℚ) * tr⌋ + ⌊(n : ℚ) * vr⌋ : ℤ) : ℚ) ≤ (n : ℚ) := by
      push_cast
      linarith
    exact_mod_cast h5
  set a : ℤ := ⌊(n : ℚ) * tr⌋ with hadef
  set b : ℤ := ⌊(n : ℚ) * vr⌋ with hbdef
  have ept : pyInt ((l.length : ℚ) * tr) = a := by
    rw [hlen, pyInt_of_nonneg (by positivity)]
  have epv : pyInt ((l.length : ℚ) * vr) = b := by
    rw [hlen, pyInt_of_nonneg (by positivity)]
  have hn1 : pySliceNorm l.length a = a.toNat :=
    pySliceNorm_of_nonneg ha0 (by omega)
  have hn2 : pySliceNorm l.length (a + b) = (a + b).toNat :=
    pySliceNorm_of_nonneg (by omega) (by omega)
  refine ⟨pySliceTo l a, pySlice l a (a + b), pySliceFrom l (a + b), ?_, ?_, ?_, ?_, ?_⟩
  · simp only [split_dataset, if_pos hok, ept, epv]
  · unfold pySliceTo
    rw [hn1, List.length_take]
    omega
  · unfold pySlice
    rw [hn1, hn2, List.length_drop, List.length_take]
    omega
  · unfold pySliceTo pySlice pySliceFrom
    rw [hn1, hn2, List.length_take, List.length_drop, List.length_take, List.length_drop]
    omega
  · unfold pySliceTo pySlice pySliceFrom
    rw [hn1, hn2, take_drop_partition l a.toNat ((a + b).toNat) (by omega)]
    exact hperm

/-- C5 witness: 100 records with ratios (0.7, 0.2, 0.1) and the identity
shuffle give subsets of sizes 70, 20 and 10 partitioning `[0, 100)`. -/
theorem split_partition_sizes_witness :
    ∃ t v te,
      split_dataset true (7/10) (1/5) (1/10) (List.range 100) =
        (true, Except.ok (t, v, te)) ∧
      t.length = 70 ∧ v.length = 20 ∧ te.length = 10 ∧
      (t ++ (v ++ te)).Perm (List.range 100) := by
  obtain ⟨t, v, te, heq, h1, h2, h3, h4⟩ :=
    split_partition_sizes (7/10) (1/5) (1/10) 100 (List.range 100)
      (List.Perm.refl _) (by norm_num) (by norm_num) (by norm_num)
      (by constructor <;> norm_num)
  have e1 : ⌊((100 : ℕ) : ℚ) * (7/10)⌋ = 70 := by norm_num
  have e2 : ⌊((100 : ℕ) : ℚ) * (1/5)⌋ = 20 := by norm_num
  rw [e1] at h1
  rw [e2] at h2
  have h1' : t.length = 70 := h1
  have h2' : v.length = 20 := h2
  exact ⟨t, v, te, heq, h1', h2', by omega, h4⟩

/-- C5 counterexample: with 200 records and the valid non-negative ratios
(0.5, 0.505, 0.004) — sum 1.009, accepted by the check — the val subset has
only 100 elements although `⌊200 · 0.505⌋ = 101`: the middle slice is
clipped by the end of the list, so the claimed size formula fails. -/
theorem split_sizes_cex :
    ∃ t v te,
      split_dataset true (1/2) (101/200) (1/250) (List.range 200) =
        (true, Except.ok (t, v, te)) ∧
      ((0:ℚ) ≤ 1/2 ∧ (0:ℚ) ≤ 101/200 ∧ (0:ℚ) ≤ 1/250) ∧
      ratio_sum_ok (1/2) (101/200) (1/250) ∧
      v.length = 100 ∧ (⌊(200 : ℚ) * (101/200)⌋).toNat = 101 := by
  have hok : ratio_sum_ok (1/2) (101/200) (1/250) := by
    constructor <;> norm_num
  have e1 : pyInt (((List.range 200).length : ℚ) * (1/2)) = 100 := by
    rw [List.length_range, pyInt_of_nonneg (by positivity)]
    norm_num
  have e2 : pyInt (((List.range 200).length : ℚ) * (101/200)) = 101 := by
    rw [List.length_range, pyInt_of_nonneg (by positivity)]
    norm_num
  refine ⟨pySliceTo (List.range 200) 100, pySlice (List.range 200) 100 (100 + 101),
          pySliceFrom (List.range 200) (100 + 101), ?_, by norm_num, hok, ?_, ?_⟩
  · simp only [split_dataset, if_pos hok, e1, e2]
  · unfold pySlice
    have hn1 : pySliceNorm (List.range 200).length 100 = 100 := by
      rw [List.length_range]; decide
    have hn2 : pySliceNorm (List.range 200).length (100 + 101) = 200 := by
      rw [List.length_range]; decide
    rw [hn1, hn2, List.length_drop, List.length_take, List.length_range]
    omega
  · rw [show ⌊(200 : ℚ) * (101/200)⌋ = (101 : ℤ) from by norm_num]
    rfl

/-- C10: `split_dataset` runs `os.makedirs(output_dir)` before validating the
ratio sum, so a call with an invalid sum still leaves the output directory
created even though it fails with `InvalidRatioSum` and returns no
partition: the failure is not atomic with respect to filesystem state. -/
theorem split_creates_dir_before_check (d : Bool) (tr vr ts : ℚ) (l : List ℕ)
    (hbad : ¬ ratio_sum_ok tr vr ts) :
    (split_dataset d tr vr ts l).1 = true ∧
    (split_dataset d tr vr ts l).2 = Except.error () := by
  unfold split_dataset
  rw [if_neg hbad]
  exact ⟨rfl, rfl⟩

/-- C10 witness: calling with directory initially absent (`false`) and the
invalid ratios (0.5, 0.2, 0.1) (sum 0.8) fails yet leaves the directory
created. -/
theorem split_creates_dir_before_check_witness :
    (split_dataset false (1/2) (1/5) (1/10) []).1 = true ∧
    (split_dataset false (1/2) (1/5) (1/10) []).2 = Except.error () :=
  split_creates_dir_before_check false (1/2) (1/5) (1/10) []
    (by unfold ratio_sum_ok; norm_num)

/-! ## Theorems for background-loading claims -/

lemma loadLoop_all_decode (files : List DirFile) (acc : List PILImage)
    (hall : ∀ f ∈ files, isImageFile f.name = true → f.decoded.isSome = true) :
    loadLoop files acc =
      (decide (0 < (acc ++ decodedImages files).length), acc ++ decodedImages files) := by
  induction files generalizing acc with
  | nil => simp [loadLoop, decodedImages]
  | cons f rest ih =>
      by_cases hf : isImageFile f.name = true
      · have hsome : f.decoded.isSome = true := hall f (by simp) hf
        obtain ⟨img, himg⟩ := Option.isSome_iff_exists.mp hsome
        rw [show loadLoop (f :: rest) acc = loadLoop rest (acc ++ [img]) by
              simp [loadLoop, hf, himg],
            ih (acc ++ [img]) (fun g hg => hall g (by simp [hg]))]
        simp [decodedImages, hf, himg]
      · rw [show loadLoop (f :: rest) acc = loadLoop rest acc by simp [loadLoop, hf],
            ih acc (fun g hg => hall g (by simp [hg]))]
        simp [decodedImages, hf]

lemma loadLoop_fail (files : List DirFile) (acc : List PILImage)
    (hfail : ∃ f ∈ files, isImageFile f.name = true ∧ f.decoded = none) :
    (loadLoop files acc).1 = false := by
  induction files generalizing acc with
  | nil => simp at hfail
  | cons f rest ih =>
      by_cases hf : isImageFile f.name = true
      · cases hd : f.decoded with
        | none => simp [loadLoop, hf, hd]
        | some img =>
            rw [show loadLoop (f :: rest) acc = loadLoop rest (acc ++ [img]) by
                  simp [loadLoop, hf, hd]]
            apply ih
            obtain ⟨g, hg, hgf, hgd⟩ := hfail
            rcases List.mem_cons.mp hg with hgeq | hgrest
            · exact absurd hgd (by rw [hgeq, hd]; simp)
            · exact ⟨g, hgrest, hgf, hgd⟩
      · rw [show loadLoop (f :: rest) acc = loadLoop rest acc by simp [loadLoop, hf]]
        apply ih
        obtain ⟨g, hg, hgf, hgd⟩ := hfail
        rcases List.mem_cons.mp hg with hgeq | hgrest
        · exact absurd hgf (by rw [hgeq]; exact hf)
        · exact ⟨g, hgrest, hgf, hgd⟩

/-- C3 (amended): a decode failure of an individual recognized file ABORTS
the whole scan: the call returns `false` (keeping only the images decoded
before the failure in `self.background_images`).  The scan returns the
decoded-image set with success iff the directory lists, every recognized
file decodes, and the result is non-empty; an unlistable directory yields
`(false, [])`. -/
theorem load_background_directory_spec (files : List DirFile) :
    load_background_directory none = (false, []) ∧
    ((∀ f ∈ files, isImageFile f.name = true → f.decoded.isSome = true) →
       load_background_directory (some files) =
         (decide (0 < (decodedImages files).length), decodedImages files)) ∧
    ((∃ f ∈ files, isImageFile f.name = true ∧ f.decoded = none) →
       (load_background_directory (some files)).1 = false) := by
  refine ⟨rfl, ?_, ?_⟩
  · intro hall
    rw [show load_background_directory (some files) = loadLoop files [] from rfl,
        loadLoop_all_decode files [] hall]
    simp
  · intro hfail
    rw [show load_background_directory (some files) = loadLoop files [] from rfl]
    exact loadLoop_fail files [] hfail

/-- C3 witness: a directory with the single decodable `a.png` loads with
success and keeps that image. -/
theorem load_background_directory_spec_witness :
    load_background_directory (some [⟨(r"a.png").toList, some ⟨3, 4⟩⟩]) =
      (true, [⟨3, 4⟩]) := by
  have h := (load_background_directory_spec [⟨(r"a.png").toList, some ⟨3, 4⟩⟩]).2.1
    (by decide)
  rw [h]
  decide

/-- C3 counterexample: a directory listing `b.png` (corrupt) then `a.png`
(decodable).  One image decodes and the directory lists fine, so the claim
requires success with `a.png` kept — but the code aborts on the first decode
failure, returns `false`, and keeps nothing. -/
theorem load_directory_decode_abort_cex :
    load_background_directory
        (some [⟨(r"b.png").toList, none⟩, ⟨(r"a.png").toList, some ⟨3, 4⟩⟩]) =
      (false, []) ∧
    decodedImages [⟨(r"b.png").toList, none⟩, ⟨(r"a.png").toList, some ⟨3, 4⟩⟩] =
      [⟨3, 4⟩] := by
  constructor
  · decide
  · decide

/-! ## Theorems for get_background / synthesize claims -/

/-- C7: `get_background` returns a random element of the loaded directory
set when it is non-empty (every index is a possible draw), otherwise the
single held surface; when neither exists it yields `None`, on which
`synthesize` raises the no-background error. -/
theorem get_background_spec (s : BGState) (r : ℕ) (g : PILImage)
    (text : List Char) (tf : Option TransformMap) (rx ry : ℕ) :
    (s.backgroundImages = [] → get_background s r = s.image) ∧
    (s.backgroundImages = [] → s.image = none →
       get_background s r = none ∧
       synthesize (get_background s r) g text tf rx ry =
         Except.error SynthError.backgroundNotSet) ∧
    (∀ i (h : i < s.backgroundImages.length),
       get_background s i = some (s.backgroundImages.get ⟨i, h⟩)) := by
  refine ⟨?_, ?_, ?_⟩
  · intro hempty
    unfold get_background get_random_background
    rw [dif_pos (by rw [hempty]; rfl)]
  · intro hempty hnone
    have h1 : get_background s r = none := by
      unfold get_background get_random_background
      rw [dif_pos (by rw [hempty]; rfl)]
      exact hnone
    exact ⟨h1, by rw [h1]; rfl⟩
  · intro i h
    unfold get_background get_random_background
    rw [dif_neg (by omega)]
    congr 1
    apply congrArg
    exact Fin.ext (Nat.mod_eq_of_lt h)

/-- C7 witness: with a two-element directory set the draw 1 returns the
second surface; with no directory set and no single surface, `synthesize`
fails with the no-background error. -/
theorem get_background_spec_witness :
    get_background ⟨some ⟨7, 7⟩, [⟨1, 2⟩, ⟨3, 4⟩]⟩ 1 = some ⟨3, 4⟩ ∧
    synthesize (get_background ⟨none, []⟩ 0) ⟨50, 50⟩ [] none 0 0 =
      Except.error SynthError.backgroundNotSet := by
  constructor
  · have h := (get_background_spec ⟨some ⟨7, 7⟩, [⟨1, 2⟩, ⟨3, 4⟩]⟩ 1 ⟨50, 50⟩ [] none 0 0).2.2
      1 (by decide)
    rw [h]
    rfl
  · exact ((get_background_spec ⟨none, []⟩ 0 ⟨50, 50⟩ [] none 0 0).2.1 rfl rfl).2

lemma generate_random_position_le (tw th bw bh rx ry : ℕ)
    (hw : tw ≤ bw) (hh : th ≤ bh) :
    (generate_random_position tw th bw bh rx ry).1 + tw ≤ bw ∧
    (generate_random_position tw th bw bh rx ry).2 + th ≤ bh := by
  unfold generate_random_position randint
  have e1 : (if bw < tw then bw else tw) = tw := if_neg (by omega)
  have e2 : (if bh < th then bh else th) = th := if_neg (by omega)
  rw [e1, e2]
  have h1 : rx % (max 0 (bw - tw) + 1 - 0) ≤ bw - tw := by
    have := Nat.mod_lt rx (y := max 0 (bw - tw) + 1 - 0) (by omega)
    omega
  have h2 : ry % (max 0 (bh - th) + 1 - 0) ≤ bh - th := by
    have := Nat.mod_lt ry (y := max 0 (bh - th) + 1 - 0) (by omega)
    omega
  constructor <;> simp only <;> omega

/-- C2 (amended): provided the (transformed) glyph fits inside the
background, every record produced by `synthesize` satisfies
`0 ≤ position.x` and `position.x + size.w + 10 ≤ composite width` (NOT
`+ 20` as claimed: the glyph's right padding edge is `position.x + size.w
+ 10`), and likewise for y/height; `size` is the glyph dimensions minus 20
and `position` is the paste offset plus 10 on each axis.  The box therefore
lies strictly within the saved image's pixel bounds. -/
theorem synthesize_box_within_bounds (b glyph : PILImage) (text : List Char)
    (tf : Option TransformMap) (rx ry : ℕ) (img : PILImage) (a : AnnRec)
    (hw : glyph.width ≤ b.width) (hh : glyph.height ≤ b.height)
    (hres : synthesize (some b) glyph text tf rx ry = Except.ok (img, a)) :
    0 ≤ a.position.1 ∧ a.position.1 + a.size.1 + 10 ≤ (img.width : ℤ) ∧
    0 ≤ a.position.2 ∧ a.position.2 + a.size.2 + 10 ≤ (img.height : ℤ) ∧
    a.size = ((glyph.width : ℤ) - 20, (glyph.height : ℤ) - 20) ∧
    (∃ px py : ℕ, a.position = ((px : ℤ) + 10, (py : ℤ) + 10) ∧
       (px, py) = generate_random_position glyph.width glyph.height b.width b.height rx ry) := by
  have hx := generate_random_position_le glyph.width glyph.height b.width b.height rx ry hw hh
  set pos := generate_random_position glyph.width glyph.height b.width b.height rx ry with hpos
  have hdef : synthesize (some b) glyph text tf rx ry =
      Except.ok (({ width := b.width, height := b.height } : PILImage),
        ({ text := text,
           position := ((pos.1 : ℤ) + 10, (pos.2 : ℤ) + 10),
           size := ((glyph.width : ℤ) - 20, (glyph.height : ℤ) - 20),
           transform := tf.getD {} } : AnnRec)) := rfl
  rw [hdef] at hres
  simp only [Except.ok.injEq, Prod.mk.injEq] at hres
  obtain ⟨h1, h2⟩ := hres
  subst h1
  subst h2
  obtain ⟨hx1, hx2⟩ := hx
  refine ⟨?_, ?_, ?_, ?_, rfl, pos.1, pos.2, rfl, rfl⟩
  · show (0 : ℤ) ≤ (pos.1 : ℤ) + 10
    omega
  · show (pos.1 : ℤ) + 10 + ((glyph.width : ℤ) - 20) + 10 ≤ ((b.width : ℕ) : ℤ)
    omega
  · show (0 : ℤ) ≤ (pos.2 : ℤ) + 10
    omega
  · show (pos.2 : ℤ) + 10 + ((glyph.height : ℤ) - 20) + 10 ≤ ((b.height : ℕ) : ℤ)
    omega

/-- C2 witness: a 100×100 glyph on a 200×200 background with draws (0, 0)
yields a record with position (10, 10), size (80, 80), inside the bounds
with the `+10` margin. -/
theorem synthesize_box_within_bounds_witness :
    synthesize (some ⟨200, 200⟩) ⟨100, 100⟩ [] none 0 0 =
      Except.ok (⟨200, 200⟩, ⟨[], (10, 10), (80, 80), {}⟩) ∧
    (0 : ℤ) ≤ 10 ∧ (10 : ℤ) + 80 + 10 ≤ ((200 : ℕ) : ℤ) := by
  have h := synthesize_box_within_bounds ⟨200, 200⟩ ⟨100, 100⟩ [] none 0 0
    ⟨200, 200⟩ ⟨[], (10, 10), (80, 80), {}⟩ (by decide) (by decide) rfl
  exact ⟨rfl, h.1, h.2.1⟩

/-- C2 counterexample: a 100×100 glyph on a 200×200 background with the
(legal, maximal) draw x = 100 gives position.x = 110 and size.w = 80, so
`position.x + size.w + 20 = 210 > 200`: the claimed `+ 20` bound fails. -/
theorem synthesize_inset_bound_cex :
    ∃ img a, synthesize (some ⟨200, 200⟩) ⟨100, 100⟩ [] none 100 0 =
        Except.ok (img, a) ∧
      ¬(a.position.1 + a.size.1 + 20 ≤ (img.width : ℤ)) := by
  refine ⟨⟨200, 200⟩, ⟨[], (110, 10), (80, 80), {}⟩, rfl, by decide⟩

/-! ## Theorems for the COCO export claim -/

/-- C1 evaluation at the failing input: exporting three records with
`split=False` yields `images` with ids 1, 2, 3 and annotations with
matching `image_id`s 1, 2, 3 — but every annotation's own `id` is 1,
because `ann_id` is never incremented in `_export_coco_subset`; the claimed
sequence 1, 2, 3 does not appear. -/
theorem export_coco_ids_failing :
    (export_coco_subset
        [⟨[], (10, 10), (80, 80), {}, [], 200, 200⟩,
         ⟨[], (20, 20), (60, 60), {}, [], 200, 200⟩,
         ⟨[], (30, 30), (40, 40), {}, [], 200, 200⟩]).1.map CocoImage.id = [1, 2, 3] ∧
    (export_coco_subset
        [⟨[], (10, 10), (80, 80), {}, [], 200, 200⟩,
         ⟨[], (20, 20), (60, 60), {}, [], 200, 200⟩,
         ⟨[], (30, 30), (40, 40), {}, [], 200, 200⟩]).2.map CocoAnnEntry.image_id = [1, 2, 3] ∧
    (export_coco_subset
        [⟨[], (10, 10), (80, 80), {}, [], 200, 200⟩,
         ⟨[], (20, 20), (60, 60), {}, [], 200, 200⟩,
         ⟨[], (30, 30), (40, 40), {}, [], 200, 200⟩]).2.map CocoAnnEntry.id = [1, 1, 1] ∧
    (export_coco_subset
        [⟨[], (10, 10), (80, 80), {}, [], 200, 200⟩,
         ⟨[], (20, 20), (60, 60), {}, [], 200, 200⟩,
         ⟨[], (30, 30), (40, 40), {}, [], 200, 200⟩]).2.map CocoAnnEntry.id ≠ [1, 2, 3] := by
  refine ⟨rfl, rfl, rfl, by decide⟩

/-! ## Theorems for the render_text font-size claim -/

/-- C6 (amended): if the measured bounding box has non-positive width or
height the font size stays unchanged; otherwise the new size is
`int(size * scale)` — truncation (floor for this non-negative quantity),
NOT rounding to nearest — with `scale = min(targetW/measuredW,
targetH/measuredH)` and the targets the floor of 90% of the canvas
dimensions. -/
theorem render_text_size_rule (font_size : ℕ) (bbox : BBox) (canvasW canvasH : ℕ)
    (hcw : 0 < bbox.x1 - bbox.x0) (hch : 0 < bbox.y1 - bbox.y0) :
    render_text_new_size font_size bbox canvasW canvasH =
      ⌊(font_size : ℚ) *
         min ((⌊(canvasW : ℚ) * (9/10)⌋ : ℚ) / ((bbox.x1 - bbox.x0 : ℤ) : ℚ))
             ((⌊(canvasH : ℚ) * (9/10)⌋ : ℚ) / ((bbox.y1 - bbox.y0 : ℤ) : ℚ))⌋ ∧
    (∀ fs : ℕ, ∀ bb : BBox, ∀ cw ch : ℕ, bb.x1 - bb.x0 ≤ 0 ∨ bb.y1 - bb.y0 ≤ 0 →
       render_text_new_size fs bb cw ch = (fs : ℤ)) := by
  constructor
  · have h1 : (0 : ℚ) ≤ (⌊(canvasW : ℚ) * (9/10)⌋ : ℚ) / ((bbox.x1 - bbox.x0 : ℤ) : ℚ) := by
      apply div_nonneg
      · exact_mod_cast Int.floor_nonneg.mpr (by positivity)
      · exact_mod_cast le_of_lt hcw
    have h2 : (0 : ℚ) ≤ (⌊(canvasH : ℚ) * (9/10)⌋ : ℚ) / ((bbox.y1 - bbox.y0 : ℤ) : ℚ) := by
      apply div_nonneg
      · exact_mod_cast Int.floor_nonneg.mpr (by positivity)
      · exact_mod_cast le_of_lt hch
    have e1 : pyInt ((canvasW : ℚ) * (9/10)) = ⌊(canvasW : ℚ) * (9/10)⌋ :=
      pyInt_of_nonneg (by positivity)
    have e2 : pyInt ((canvasH : ℚ) * (9/10)) = ⌊(canvasH : ℚ) * (9/10)⌋ :=
      pyInt_of_nonneg (by positivity)
    unfold render_text_new_size
    rw [if_neg (by omega), e1, e2,
        pyInt_of_nonneg (mul_nonneg (by positivity) (le_min h1 h2))]
  · intro fs bb cw ch h
    unfold render_text_new_size
    rw [if_pos h]

/-- C6 witness: font size 10, measured box 50×50, canvas 200×200: the new
size is `⌊10 · min(180/50, 180/50)⌋ = 36`. -/
theorem render_text_size_rule_witness :
    render_text_new_size 10 ⟨0, 0, 50, 50⟩ 200 200 = 36 := by
  rw [(render_text_size_rule 10 ⟨0, 0, 50, 50⟩ 200 200 (by decide) (by decide)).1]
  norm_num

/-- C6 counterexample: font size 10, measured box 270×270, canvas 200×200:
the target is 180, the scale is 180/270 = 2/3, and `10 · 2/3 = 20/3`.  The
code truncates to 6, while the claimed `round(size * scale)` is 7. -/
theorem render_text_round_cex :
    render_text_new_size 10 ⟨0, 0, 270, 270⟩ 200 200 = 6 ∧
    pyInt ((200 : ℚ) * (9/10)) = 180 ∧
    round ((10 : ℚ) * min ((180 : ℚ) / 270) ((180 : ℚ) / 270)) = 7 := by
  refine ⟨?_, ?_, ?_⟩
  · rw [(render_text_size_rule 10 ⟨0, 0, 270, 270⟩ 200 200 (by decide) (by decide)).1]
    norm_num
  · rw [pyInt_of_nonneg (by positivity)]
    norm_num
  · rw [min_self]
    rw [round_eq]
    norm_num

/-! ## Theorems for the perspective clamp claim -/

lemma tanh_eq_formula (x : ℝ) : Real.tanh x = 1 - 2 / (Real.exp (2 * x) + 1) := by
  rw [Real.tanh_eq_sinh_div_cosh, Real.sinh_eq, Real.cosh_eq]
  have hx : (0 : ℝ) < Real.exp x := Real.exp_pos x
  have h2x : Real.exp (2 * x) = Real.exp x * Real.exp x := by
    rw [two_mul, Real.exp_add]
  rw [h2x, Real.exp_neg]
  have hne : Real.exp x ≠ 0 := ne_of_gt hx
  have hd1 : Real.exp x + (Real.exp x)⁻¹ ≠ 0 := by positivity
  have hd2 : Real.exp x * Real.exp x + 1 ≠ 0 := by positivity
  field_simp
  ring

lemma tanh_lt_one_formula (x : ℝ) : Real.tanh x < 1 := by
  rw [tanh_eq_formula]
  have h : (0 : ℝ) < 2 / (Real.exp (2 * x) + 1) := by positivity
  linarith

lemma neg_one_lt_tanh_formula (x : ℝ) : -1 < Real.tanh x := by
  rw [tanh_eq_formula]
  have h1 : (1 : ℝ) < Real.exp (2 * x) + 1 := by
    have := Real.exp_pos (2 * x)
    linarith
  have h2 : 2 / (Real.exp (2 * x) + 1) < 2 := by
    rw [div_lt_iff (by positivity)]
    nlinarith
  linarith

lemma tanh_mono {x y : ℝ} (h : x ≤ y) : Real.tanh x ≤ Real.tanh y := by
  rw [tanh_eq_formula, tanh_eq_formula]
  have hxy : Real.exp (2 * x) ≤ Real.exp (2 * y) := Real.exp_le_exp.mpr (by linarith)
  have h1 : 2 / (Real.exp (2 * y) + 1) ≤ 2 / (Real.exp (2 * x) + 1) := by
    apply div_le_div_of_nonneg_left (by norm_num) (by positivity)
    linarith
  linarith

lemma max_offset_nonneg (w h : ℕ) : 0 ≤ max_offset w h := by
  unfold max_offset
  positivity

lemma clamp_offset_abs_le (m d : ℝ) (hm : 0 ≤ m) : |clamp_offset m d| ≤ m := by
  unfold clamp_offset
  rw [abs_mul, abs_of_nonneg hm]
  calc m * |Real.tanh (d / m)| ≤ m * 1 := by
        apply mul_le_mul_of_nonneg_left _ hm
        rw [abs_le]
        exact ⟨le_of_lt (neg_one_lt_tanh_formula _), le_of_lt (tanh_lt_one_formula _)⟩
    _ = m := mul_one m

lemma clamp_offset_mono (m : ℝ) (hm : 0 ≤ m) {d d' : ℝ} (h : d ≤ d') :
    clamp_offset m d ≤ clamp_offset m d' := by
  rcases eq_or_lt_of_le hm with he | hpos
  · unfold clamp_offset
    rw [← he]
    simp
  · unfold clamp_offset
    apply mul_le_mul_of_nonneg_left _ hm
    exact tanh_mono ((div_le_div_right hpos).mpr h)

/-- C8: in `apply_perspective`, the applied per-axis displacement of every
destination corner is `max_offset * tanh(d / max_offset)` for the requested
displacement `d`, with `max_offset = 0.05 * min(width, height)`; its
magnitude never exceeds `max_offset` on either axis, and it is monotone in
the requested displacement. -/
theorem apply_perspective_clamp (w h : ℕ) (p q : Fin 4 → ℝ × ℝ) (i : Fin 4)
    (hx : (p i).1 ≤ (q i).1) (hy : (p i).2 ≤ (q i).2) :
    ((apply_perspective_dst w h p i).1 - (src_corners w h i).1 =
       max_offset w h *
         Real.tanh (((p i).1 - (src_corners w h i).1) / max_offset w h)) ∧
    |(apply_perspective_dst w h p i).1 - (src_corners w h i).1| ≤ max_offset w h ∧
    |(apply_perspective_dst w h p i).2 - (src_corners w h i).2| ≤ max_offset w h ∧
    (apply_perspective_dst w h p i).1 ≤ (apply_perspective_dst w h q i).1 ∧
    (apply_perspective_dst w h p i).2 ≤ (apply_perspective_dst w h q i).2 ∧
    max_offset w h = 0.05 * min (w : ℝ) (h : ℝ) := by
  have hm : 0 ≤ max_offset w h := max_offset_nonneg w h
  refine ⟨?_, ?_, ?_, ?_, ?_, ?_⟩
  · show (src_corners w h i).1 +
        clamp_offset (max_offset w h) ((p i).1 - (src_corners w h i).1) -
        (src_corners w h i).1 = _
    unfold clamp_offset
    ring
  · show |(src_corners w h i).1 +
        clamp_offset (max_offset w h) ((p i).1 - (src_corners w h i).1) -
        (src_corners w h i).1| ≤ _
    rw [show (src_corners w h i).1 +
        clamp_offset (max_offset w h) ((p i).1 - (src_corners w h i).1) -
        (src_corners w h i).1 =
        clamp_offset (max_offset w h) ((p i).1 - (src_corners w h i).1) by ring]
    exact clamp_offset_abs_le _ _ hm
  · show |(src_corners w h i).2 +
        clamp_offset (max_offset w h) ((p i).2 - (src_corners w h i).2) -
        (src_corners w h i).2| ≤ _
    rw [show (src_corners w h i).2 +
        clamp_offset (max_offset w h) ((p i).2 - (src_corners w h i).2) -
        (src_corners w h i).2 =
        clamp_offset (max_offset w h) ((p i).2 - (src_corners w h i).2) by ring]
    exact clamp_offset_abs_le _ _ hm
  · show (src_corners w h i).1 + clamp_offset (max_offset w h) _ ≤
        (src_corners w h i).1 + clamp_offset (max_offset w h) _
    exact add_le_add_left (clamp_offset_mono _ hm (by linarith)) _
  · show (src_corners w h i).2 + clamp_offset (max_offset w h) _ ≤
        (src_corners w h i).2 + clamp_offset (max_offset w h) _
    exact add_le_add_left (clamp_offset_mono _ hm (by linarith)) _
  · unfold max_offset
    ring

/-- C8 witness: instantiation at a 100×100 surface, corner 0, requested
displacements 0 ≤ 0. -/
theorem apply_perspective_clamp_witness :
    ((apply_perspective_dst 100 100 (fun _ => (0, 0)) 0).1 -
        (src_corners 100 100 0).1 =
      max_offset 100 100 *
        Real.tanh ((((fun _ => ((0 : ℝ), (0 : ℝ))) (0 : Fin 4)).1 -
          (src_corners 100 100 0).1) / max_offset 100 100)) ∧
    |(apply_perspective_dst 100 100 (fun _ => (0, 0)) 0).1 -
        (src_corners 100 100 0).1| ≤ max_offset 100 100 ∧
    |(apply_perspective_dst 100 100 (fun _ => (0, 0)) 0).2 -
        (src_corners 100 100 0).2| ≤ max_offset 100 100 ∧
    (apply_perspective_dst 100 100 (fun _ => (0, 0)) 0).1 ≤
      (apply_perspective_dst 100 100 (fun _ => (0, 0)) 0).1 ∧
    (apply_perspective_dst 100 100 (fun _ => (0, 0)) 0).2 ≤
      (apply_perspective_dst 100 100 (fun _ => (0, 0)) 0).2 ∧
    max_offset 100 100 = 0.05 * min ((100 : ℕ) : ℝ) ((100 : ℕ) : ℝ) :=
  apply_perspective_clamp 100 100 (fun _ => (0, 0)) (fun _ => (0, 0)) 0
    le_rfl le_rfl

/-! ## Theorems for the YOLO round-trip claim -/

lemma fmt6_err (q : ℚ) : |fmt6 q - q| ≤ 1/2000000 := by
  unfold fmt6
  have h := abs_sub_round (q * 1000000)
  rw [abs_sub_comm] at h
  have key : (round (q * 1000000) : ℚ) / 1000000 - q =
      ((round (q * 1000000) : ℚ) - q * 1000000) / 1000000 := by ring
  rw [key, abs_div, abs_of_pos (show (0:ℚ) < 1000000 by norm_num)]
  calc |(round (q * 1000000) : ℚ) - q * 1000000| / 1000000
      ≤ (1/2) / 1000000 :=
        div_le_div_of_nonneg_right h (by norm_num)
    _ = 1/2000000 := by norm_num

lemma fmt6_center_bound (u v W : ℚ) (hW : 0 < W) (hWle : W ≤ 1000000) :
    |(fmt6 u - u) * W - (fmt6 v - v) * W / 2| ≤ 1 := by
  have hu := abs_le.mp (fmt6_err u)
  have hv := abs_le.mp (fmt6_err v)
  have hW0 : (0:ℚ) ≤ W := le_of_lt hW
  have p1 : (fmt6 u - u) * W ≤ (1/2000000) * W :=
    mul_le_mul_of_nonneg_right hu.2 hW0
  have p2 : (-(1/2000000)) * W ≤ (fmt6 u - u) * W :=
    mul_le_mul_of_nonneg_right hu.1 hW0
  have p3 : (fmt6 v - v) * W ≤ (1/2000000) * W :=
    mul_le_mul_of_nonneg_right hv.2 hW0
  have p4 : (-(1/2000000)) * W ≤ (fmt6 v - v) * W :=
    mul_le_mul_of_nonneg_right hv.1 hW0
  rw [abs_le]
  constructor <;> linarith

lemma fmt6_scale_bound (v W : ℚ) (hW : 0 < W) (hWle : W ≤ 1000000) :
    |(fmt6 v - v) * W| ≤ 1 := by
  have hv := abs_le.mp (fmt6_err v)
  have hW0 : (0:ℚ) ≤ W := le_of_lt hW
  have p3 : (fmt6 v - v) * W ≤ (1/2000000) * W :=
    mul_le_mul_of_nonneg_right hv.2 hW0
  have p4 : (-(1/2000000)) * W ≤ (fmt6 v - v) * W :=
    mul_le_mul_of_nonneg_right hv.1 hW0
  rw [abs_le]
  constructor <;> linarith

lemma yolo_component_bounds (x wd W : ℚ) (hW : 0 < W) (hWle : W ≤ 1000000) :
    |fmt6 ((x + wd/2)/W) * W - fmt6 (wd/W) * W / 2 - x| ≤ 1 ∧
    |fmt6 (wd/W) * W - wd| ≤ 1 := by
  have hWne : W ≠ 0 := ne_of_gt hW
  have c1 : (x + wd/2)/W * W = x + wd/2 := div_mul_cancel₀ _ hWne
  have c2 : wd/W * W = wd := div_mul_cancel₀ _ hWne
  constructor
  · have key : fmt6 ((x + wd/2)/W) * W - fmt6 (wd/W) * W / 2 - x =
        (fmt6 ((x + wd/2)/W) - (x + wd/2)/W) * W - (fmt6 (wd/W) - wd/W) * W / 2 := by
      rw [sub_mul, sub_mul, c1, c2]
      ring
    rw [key]
    exact fmt6_center_bound _ _ W hW hWle
  · have key : fmt6 (wd/W) * W - wd = (fmt6 (wd/W) - wd/W) * W := by
      rw [sub_mul, c2]
    rw [key]
    exact fmt6_scale_bound _ W hW hWle

/-- C9 (amended): for every record whose decoded image dimensions are
positive and at most 10⁶ pixels, the YOLO label line is
`0 <xCenter> <yCenter> <width> <height>` with the box's center and extent
divided by the decoded image's width/height and written to six decimal
places, and denormalizing the written line by the original image dimensions
reconstructs the absolute box to within 1 pixel on every component (the
worst-case error is `3·dim/(4·10⁶)`; for larger dimensions the 1-pixel
bound can fail). -/
theorem yolo_round_trip (r : ExportRec)
    (hW : 0 < r.imgW) (hH : 0 < r.imgH)
    (hWb : r.imgW ≤ 1000000) (hHb : r.imgH ≤ 1000000) :
    yolo_line r =
      (0, fmt6 (((r.position.1 : ℚ) + (r.size.1 : ℚ) / 2) / (r.imgW : ℚ)),
       fmt6 (((r.position.2 : ℚ) + (r.size.2 : ℚ) / 2) / (r.imgH : ℚ)),
       fmt6 ((r.size.1 : ℚ) / (r.imgW : ℚ)),
       fmt6 ((r.size.2 : ℚ) / (r.imgH : ℚ))) ∧
    |(yolo_denorm_box (yolo_line r) r.imgW r.imgH).1 - (r.position.1 : ℚ)| ≤ 1 ∧
    |(yolo_denorm_box (yolo_line r) r.imgW r.imgH).2.1 - (r.position.2 : ℚ)| ≤ 1 ∧
    |(yolo_denorm_box (yolo_line r) r.imgW r.imgH).2.2.1 - (r.size.1 : ℚ)| ≤ 1 ∧
    |(yolo_denorm_box (yolo_line r) r.imgW r.imgH).2.2.2 - (r.size.2 : ℚ)| ≤ 1 := by
  have hWq : (0:ℚ) < (r.imgW : ℚ) := by exact_mod_cast hW
  have hHq : (0:ℚ) < (r.imgH : ℚ) := by exact_mod_cast hH
  have hWle : (r.imgW : ℚ) ≤ 1000000 := by exact_mod_cast hWb
  have hHle : (r.imgH : ℚ) ≤ 1000000 := by exact_mod_cast hHb
  refine ⟨rfl, ?_, ?_, ?_, ?_⟩
  · exact (yolo_component_bounds (r.position.1 : ℚ) (r.size.1 : ℚ) (r.imgW : ℚ)
      hWq hWle).1
  · exact (yolo_component_bounds (r.position.2 : ℚ) (r.size.2 : ℚ) (r.imgH : ℚ)
      hHq hHle).1
  · exact (yolo_component_bounds (r.position.1 : ℚ) (r.size.1 : ℚ) (r.imgW : ℚ)
      hWq hWle).2
  · exact (yolo_component_bounds (r.position.2 : ℚ) (r.size.2 : ℚ) (r.imgH : ℚ)
      hHq hHle).2

/-- C9 witness: the record with box (10, 10)–(90, 90) on a 200×200 decoded
image round-trips within 1 pixel on every component. -/
theorem yolo_round_trip_witness :
    |(yolo_denorm_box (yolo_line ⟨[], (10, 10), (80, 80), {}, [], 200, 200⟩)
        200 200).1 - ((10 : ℤ) : ℚ)| ≤ 1 ∧
    |(yolo_denorm_box (yolo_line ⟨[], (10, 10), (80, 80), {}, [], 200, 200⟩)
        200 200).2.1 - ((10 : ℤ) : ℚ)| ≤ 1 ∧
    |(yolo_denorm_box (yolo_line ⟨[], (10, 10), (80, 80), {}, [], 200, 200⟩)
        200 200).2.2.1 - ((80 : ℤ) : ℚ)| ≤ 1 ∧
    |(yolo_denorm_box (yolo_line ⟨[], (10, 10), (80, 80), {}, [], 200, 200⟩)
        200 200).2.2.2 - ((80 : ℤ) : ℚ)| ≤ 1 := by
  have h := yolo_round_trip ⟨[], (10, 10), (80, 80), {}, [], 200, 200⟩
    (by decide) (by decide) (by decide) (by decide)
  exact ⟨h.2.1, h.2.2.1, h.2.2.2.1, h.2.2.2.2⟩

/-- C9 counterexample: on a 10⁷-pixel-wide decoded image, the record with
position x = 2 and width 1 normalizes to centers below half of 10⁻⁶, which
print as `0.000000`; reading back reconstructs x = 0, an error of 2 pixels:
the 1-pixel round-trip bound fails without a dimension restriction. -/
theorem yolo_round_trip_cex :
    ¬(|(yolo_denorm_box (yolo_line ⟨[], (2, 10), (1, 20), {}, [], 10000000, 100⟩)
          10000000 100).1 - ((2 : ℤ) : ℚ)| ≤ 1) := by
  have e : (yolo_denorm_box (yolo_line ⟨[], (2, 10), (1, 20), {}, [], 10000000, 100⟩)
      10000000 100).1 - ((2 : ℤ) : ℚ) = -2 := by
    norm_num [yolo_denorm_box, yolo_line, yolo_label_raw, fmt6, round_eq]
  rw [e]
  have habs : |(-2 : ℚ)| = 2 := by
    rw [abs_neg]
    exact abs_of_nonneg (by norm_num)
  rw [habs]
  norm_num
